import Mathlib

/-!
Shallow embedding of the territorial reference resolution and cache
subsystem of `src/config.py` (dashboard_fa_tolima).

Strings are modelled as `List Char`.  Python `None`/`NaN` inputs are
modelled as `Option.none`; a missing cell of the reference dataset is
likewise `none`.  The functions below mirror, line by line, the Python
functions `normalizar_nombre_territorio`, `cargar_codigos_divipola_desde_gpkg`,
`buscar_codigo_municipio` and `buscar_codigo_vereda`.
-/

abbrev Str := List Char

/-- Whitespace characters stripped by Python's `str.strip()` (the subset
relevant to this dataset). -/
def esEspacio (c : Char) : Bool :=
  c = ' ' || c = '\t' || c = '\n' || c = '\r'

/-- Drop trailing whitespace. -/
def recortaFin (l : Str) : Str :=
  (l.reverse.dropWhile esEspacio).reverse

/-- Python `str.strip()`: drop leading and trailing whitespace. -/
def pyStrip (l : Str) : Str :=
  recortaFin (l.dropWhile esEspacio)

/-- Lower-case → upper-case character table used by Python `str.upper()`
on the alphabet occurring in this dataset (ASCII letters plus the accented
vowels and eñe that the normalizer later folds). -/
def parejasMayus : List (Char × Char) :=
  [('a', 'A'), ('b', 'B'), ('c', 'C'), ('d', 'D'), ('e', 'E'), ('f', 'F'),
   ('g', 'G'), ('h', 'H'), ('i', 'I'), ('j', 'J'), ('k', 'K'), ('l', 'L'),
   ('m', 'M'), ('n', 'N'), ('o', 'O'), ('p', 'P'), ('q', 'Q'), ('r', 'R'),
   ('s', 'S'), ('t', 'T'), ('u', 'U'), ('v', 'V'), ('w', 'W'), ('x', 'X'),
   ('y', 'Y'), ('z', 'Z'),
   ('á', 'Á'), ('é', 'É'), ('í', 'Í'), ('ó', 'Ó'), ('ú', 'Ú'), ('ñ', 'Ñ')]

/-- Upper-case a single character. -/
def mayusChar (c : Char) : Char :=
  ((parejasMayus.find? (fun p => p.1 = c)).map Prod.snd).getD c

/-- Python `str.upper()` (character-wise). -/
def pyUpper (l : Str) : Str :=
  l.map mayusChar

/-- The accent-folding table of `normalizar_nombre_territorio`
(config.py lines 280-282): Á→A, É→E, Í→I, Ó→O, Ú→U, Ñ→N. -/
def parejasTildes : List (Char × Char) :=
  [('Á', 'A'), ('É', 'E'), ('Í', 'I'), ('Ó', 'O'), ('Ú', 'U'), ('Ñ', 'N')]

/-- Fold one accented character. -/
def tildeChar (c : Char) : Char :=
  ((parejasTildes.find? (fun p => p.1 = c)).map Prod.snd).getD c

/-- The chained `.replace("Á","A")...` calls, character-wise (the six
replaced characters are distinct and no replacement reintroduces one). -/
def quitaTildes (l : Str) : Str :=
  l.map tildeChar

/-- The alias table `MAPEO_MUNICIPIOS_ESPECIALES` (config.py lines 261-267). -/
def MAPEO_MUNICIPIOS_ESPECIALES : List (Str × Str) :=
  [("SAN SEBASTIÁN DE MARIQUITA".toList, "MARIQUITA".toList),
   ("SAN SEBASTIAN DE MARIQUITA".toList, "MARIQUITA".toList),
   ("ARMERO (GUAYABAL)".toList, "ARMERO GUAYABAL".toList),
   ("CARMEN DE APICALÁ".toList, "CARMEN DE APICALA".toList),
   ("VALLE DE SAN JUAN".toList, "VALLE DE SAN JUAN".toList)]

/-- Python `MAPEO_MUNICIPIOS_ESPECIALES.get(nombre, nombre)`. -/
def aplicarMapeoEspecial (l : Str) : Str :=
  ((MAPEO_MUNICIPIOS_ESPECIALES.find? (fun p => p.1 = l)).map Prod.snd).getD l

/-- Python `str.replace("  ", " ")`: one left-to-right pass replacing each
non-overlapping occurrence of two spaces by one space. -/
def reemplazaDobleEspacio : Str → Str
  | [] => []
  | [c] => [c]
  | c1 :: c2 :: resto =>
    if c1 = ' ' && c2 = ' ' then ' ' :: reemplazaDobleEspacio resto
    else c1 :: reemplazaDobleEspacio (c2 :: resto)

/-- Holds (`true`) iff the list contains no two consecutive spaces. -/
def sinDobleEspacio : Str → Bool
  | c1 :: c2 :: resto => !(c1 = ' ' && c2 = ' ') && sinDobleEspacio (c2 :: resto)
  | _ => true

/-- The string pipeline of `normalizar_nombre_territorio` (config.py
lines 274-283) on a genuine string: strip, upper-case, special-name
substitution, accent folding, double-space replacement, final strip. -/
def normalizarStr (l : Str) : Str :=
  pyStrip (reemplazaDobleEspacio (quitaTildes (aplicarMapeoEspecial (pyUpper (pyStrip l)))))

/-- The function `normalizar_nombre_territorio` (config.py lines 269-285);
`none` models a `pd.isna` input, for which the function returns `None`. -/
def normalizar_nombre_territorio (nombre : Option Str) : Option Str :=
  match nombre with
  | none => none
  | some l => some (normalizarStr l)

/-- Python list/string relation `a == b[:len(a)]`: `a` is an initial
segment of `b` (helper for the substring test). -/
def prefijo : Str → Str → Bool
  | [], _ => true
  | _ :: _, [] => false
  | a :: as, b :: bs => a = b && prefijo as bs

/-- Python's `a in b` on strings: `a` occurs contiguously inside `b`. -/
def subcadena : Str → Str → Bool
  | a, [] => a.isEmpty
  | a, b :: bs => prefijo a (b :: bs) || subcadena a bs

/-- One row of the reference `.gpkg` dataset as read by geopandas;
`none` fields model `NaN` cells. -/
structure Fila where
  tipo : Str
  nombre : Option Str
  codigo_divipola : Option Str
  codigo_municipio : Option Str
  municipio : Option Str
deriving DecidableEq, Repr

/-- A record of `codigos_cache['municipios']`
(columns nombre, codigo_divipola, codigo_municipio). -/
structure RegMunicipio where
  nombre : Str
  codigo_divipola : Str
  codigo_municipio : Option Str
deriving DecidableEq, Repr

/-- A record of `codigos_cache['veredas']` / `['cabeceras']`
(columns nombre, codigo_divipola, municipio). -/
structure RegVereda where
  nombre : Str
  codigo_divipola : Str
  municipio : Option Str
deriving DecidableEq, Repr

/-- The `codigos_cache` dictionary built by
`cargar_codigos_divipola_desde_gpkg` (config.py lines 152-173); the
`dataframe` entry (a plain copy of the input) is not modelled. -/
structure Codigos where
  nombre_a_codigo : List (Str × Str)
  municipios : List RegMunicipio
  veredas : List RegVereda
  cabeceras : List RegVereda
  veredas_por_municipio : List (Option Str × List (Str × Str))
deriving DecidableEq, Repr

/-- Python-dict lookup `m.get(k)` on an association list kept in
insertion order. -/
def dget {κ ν : Type} [DecidableEq κ] (m : List (κ × ν)) (k : κ) : Option ν :=
  (m.find? (fun p => decide (p.1 = k))).map Prod.snd

/-- Python-dict assignment `m[k] = v`: replace in place if the key is
present (keeping its insertion position), else append. -/
def dinsert {κ ν : Type} [DecidableEq κ] (m : List (κ × ν)) (k : κ) (v : ν) :
    List (κ × ν) :=
  if m.any (fun p => decide (p.1 = k)) then
    m.map (fun p => if p.1 = k then (k, v) else p)
  else m ++ [(k, v)]

def tipoMunicipio : Str := "municipio".toList

def tipoVereda : Str := "vereda".toList

def tipoCabecera : Str := "cabecera".toList

/-- The `gdf.dropna(subset=['codigo_divipola', 'nombre'])` row predicate. -/
def filaValida (r : Fila) : Bool :=
  r.codigo_divipola.isSome && r.nombre.isSome

/-- Pandas `gdf['nombre'] = gdf['nombre'].str.strip().str.upper()` on one row. -/
def limpiaFila (r : Fila) : Fila :=
  { r with nombre := r.nombre.map (fun n => pyUpper (pyStrip n)) }

/-- The cleaned frame (config.py lines 148-149): drop rows missing
codigo_divipola or nombre, then strip+upper-case the nombre column. -/
def filasLimpias (filas : List Fila) : List Fila :=
  (filas.filter filaValida).map limpiaFila

/-- One step of `dict(zip(gdf['nombre'], gdf['codigo_divipola']))`. -/
def pasoNombreACodigo (m : List (Str × Str)) (r : Fila) : List (Str × Str) :=
  match r.nombre, r.codigo_divipola with
  | some n, some c => dinsert m n c
  | _, _ => m

def haceRegMunicipio (r : Fila) : Option RegMunicipio :=
  if r.tipo = tipoMunicipio then
    match r.nombre, r.codigo_divipola with
    | some n, some c => some ⟨n, c, r.codigo_municipio⟩
    | _, _ => none
  else none

def haceRegVereda (t : Str) (r : Fila) : Option RegVereda :=
  if r.tipo = t then
    match r.nombre, r.codigo_divipola with
    | some n, some c => some ⟨n, c, r.municipio⟩
    | _, _ => none
  else none

/-- One step of the `veredas_por_municipio` loop (config.py lines
169-173): for a vereda row, index its codigo_divipola under the raw
`municipio` value and the (already strip+upper-cased) `nombre`. -/
def pasoVeredasPorMunicipio (m : List (Option Str × List (Str × Str))) (r : Fila) :
    List (Option Str × List (Str × Str)) :=
  if r.tipo = tipoVereda then
    match r.nombre, r.codigo_divipola with
    | some n, some c =>
      match dget m r.municipio with
      | some interno => dinsert m r.municipio (dinsert interno n c)
      | none => m ++ [(r.municipio, [(n, c)])]
    | _, _ => m
  else m

/-- The index construction of `cargar_codigos_divipola_desde_gpkg`
(config.py lines 147-173), as a pure function of the parsed rows. -/
def construyeCodigos (filas : List Fila) : Codigos :=
  let fl := filasLimpias filas
  { nombre_a_codigo := fl.foldl pasoNombreACodigo []
    municipios := fl.filterMap haceRegMunicipio
    veredas := fl.filterMap (haceRegVereda tipoVereda)
    cabeceras := fl.filterMap (haceRegVereda tipoCabecera)
    veredas_por_municipio := fl.foldl pasoVeredasPorMunicipio [] }

/-- The module-level cache globals `_CODIGOS_DIVIPOLA_CACHE` and
`_GPKG_TIMESTAMP` (config.py lines 121-122). -/
structure EstadoCache where
  cache : Option Codigos
  timestamp : Option Nat
deriving DecidableEq, Repr

/-- The reference file as visible to `cargar_codigos_divipola_desde_gpkg`:
its modification time and its parse result (`none` contents models
`gpd.read_file` raising, i.e. an unreadable/unparsable file). -/
structure ArchivoGpkg where
  mtime : Nat
  contenido : Option (List Fila)
deriving DecidableEq, Repr

/-- The loader `cargar_codigos_divipola_desde_gpkg(forzar_recarga)` (config.py lines
124-188) with the file system and the global cache passed explicitly.
Returns the Python return value, the new global-cache state, and a flag
recording whether the body attempted to re-read/re-parse the file
(`gpd.read_file` was reached). -/
def cargar_codigos_divipola_desde_gpkg (forzar_recarga : Bool)
    (archivo : Option ArchivoGpkg) (st : EstadoCache) :
    Option Codigos × EstadoCache × Bool :=
  match archivo with
  | none => (none, st, false)
  | some f =>
    if ¬forzar_recarga ∧ st.cache.isSome ∧ st.timestamp = some f.mtime then
      (st.cache, st, false)
    else
      match f.contenido with
      | none => (none, st, true)
      | some filas =>
        let c := construyeCodigos filas
        (some c, ⟨some c, some f.mtime⟩, true)

/-- The exact-match loop condition of both resolvers
(`normalizar_nombre_territorio(cand) == nombre_norm`). -/
def coincideExacto (nombre_norm cand : Str) : Bool :=
  decide (normalizarStr cand = nombre_norm)

/-- The approximate-match loop condition of both resolvers
(`nombre_norm in normalizar(cand) or normalizar(cand) in nombre_norm`). -/
def coincideAprox (nombre_norm cand : Str) : Bool :=
  subcadena nombre_norm (normalizarStr cand) || subcadena (normalizarStr cand) nombre_norm

/-- The resolver `buscar_codigo_municipio` (config.py lines 190-216), given an already
loaded `codigos` cache (the Python function first calls
`cargar_codigos_divipola_desde_gpkg()` and returns `None` when that
yields no index).  A `none` query models a `pd.isna` argument; a `none`
result stands for Python `None` (or a `NaN` codigo_municipio cell). -/
def buscar_codigo_municipio (codigos : Codigos) (nombre_municipio : Option Str) :
    Option Str :=
  match nombre_municipio with
  | none => none
  | some s =>
    let nombre_norm := normalizarStr s
    match codigos.municipios.find? (fun m => coincideExacto nombre_norm m.nombre) with
    | some m => m.codigo_municipio
    | none =>
      match codigos.municipios.find? (fun m => coincideAprox nombre_norm m.nombre) with
      | some m => m.codigo_municipio
      | none => some "73999".toList

/-- The context-scoped step of `buscar_codigo_vereda` (config.py lines
233-239): look the normalized context up among the raw
`veredas_por_municipio` keys and scan that municipality's children. -/
def busquedaContexto (codigos : Codigos) (nombre_norm : Str)
    (municipio_contexto : Option Str) : Option Str :=
  match municipio_contexto with
  | none => none
  | some c =>
    if c = [] then none
    else
      let municipio_norm := normalizarStr c
      match dget codigos.veredas_por_municipio (some municipio_norm) with
      | none => none
      | some veredas_municipio =>
        (veredas_municipio.find? (fun p => decide (normalizarStr p.1 = nombre_norm))).map
          Prod.snd

/-- The resolver `buscar_codigo_vereda` (config.py lines 218-254), given an already
loaded `codigos` cache (see `buscar_codigo_municipio`). -/
def buscar_codigo_vereda (codigos : Codigos) (nombre_vereda : Option Str)
    (municipio_contexto : Option Str) : Option Str :=
  match nombre_vereda with
  | none => none
  | some s =>
    let nombre_norm := normalizarStr s
    match busquedaContexto codigos nombre_norm municipio_contexto with
    | some codigo => some codigo
    | none =>
      match codigos.veredas.find? (fun v => coincideExacto nombre_norm v.nombre) with
      | some v => some v.codigo_divipola
      | none =>
        match codigos.veredas.find? (fun v => coincideAprox nombre_norm v.nombre) with
        | some v => some v.codigo_divipola
        | none => none

def filaM (n c cm : String) : Fila := ⟨tipoMunicipio, some n.toList, some c.toList, some cm.toList, none⟩
def filaV (n c m : String) : Fila := ⟨tipoVereda, some n.toList, some c.toList, none, some m.toList⟩
def cods1 : Codigos := construyeCodigos [filaM "Ibagué" "73001" "73001", filaV "El Totumo" "73001001" "IBAGUE", filaV "La Esperanza" "73001002" "IBAGUE"]

def cods5 : Codigos := construyeCodigos
  [filaM "Santa Isabel" "73686" "73686", filaM "San Luis" "73678" "73678",
   filaV "Alto Bonito" "73686001" "SANTA ISABEL", filaV "Bonito Alto" "73678001" "SAN LUIS"]

def fila6 : Fila :=
  ⟨tipoVereda, some "  cañon ".toList, some "73001001".toList, none, some "Ibagué".toList⟩

def cods7 : Codigos :=
  construyeCodigos [filaM "AB" "73024" "73024", filaV "X" "73024009" "AB"]

def cods10 : Codigos :=
  construyeCodigos [filaM "A" "73001" "73001", filaM "  " "73002" "73002"]

theorem find?_split {α : Type} (p : α → Bool) (pre : List α) (m : α) (post : List α)
    (hpre : ∀ x ∈ pre, p x = false) (hm : p m = true) :
    (pre ++ m :: post).find? p = some m := by
  induction pre with
  | nil => simp [List.find?, hm]
  | cons a t ih =>
    have ha : p a = false := hpre a (List.mem_cons_self a t)
    simp only [List.cons_append, List.find?, ha]
    exact ih (fun x hx => hpre x (List.mem_cons_of_mem a hx))

theorem dropWhile_idem (p : Char → Bool) (l : Str) :
    (l.dropWhile p).dropWhile p = l.dropWhile p := by
  induction l with
  | nil => simp
  | cons a t ih =>
    by_cases h : p a
    · simpa [List.dropWhile, h] using ih
    · simp [List.dropWhile, h]

theorem length_dropWhile_le' (p : Char → Bool) (l : Str) :
    (l.dropWhile p).length ≤ l.length := by
  induction l with
  | nil => simp
  | cons a t ih =>
    by_cases h : p a
    · simp only [List.dropWhile, h]
      exact le_trans ih (Nat.le_succ _)
    · simp [List.dropWhile, h]

theorem head_false_of_dropWhile_self (p : Char → Bool) (c : Char) (u : Str)
    (h : (c :: u).dropWhile p = c :: u) : p c = false := by
  by_cases hc : p c
  · exfalso
    have h1 : (c :: u).dropWhile p = u.dropWhile p := by simp [List.dropWhile, hc]
    have h2 : (u.dropWhile p).length ≤ u.length := length_dropWhile_le' p u
    rw [h] at h1
    have : (c :: u).length ≤ u.length := h1 ▸ h2
    simp at this
  · simpa using hc

theorem dropWhile_suffix_decomp (p : Char → Bool) (l : Str) :
    ∃ ini, l = ini ++ l.dropWhile p := by
  induction l with
  | nil => exact ⟨[], rfl⟩
  | cons a t ih =>
    by_cases h : p a
    · obtain ⟨ini, hini⟩ := ih
      refine ⟨a :: ini, ?_⟩
      simp only [List.dropWhile, h, List.cons_append, List.cons.injEq, true_and]
      exact hini
    · exact ⟨[], by simp [List.dropWhile, h]⟩

theorem recortaFin_idem (l : Str) : recortaFin (recortaFin l) = recortaFin l := by
  simp [recortaFin, List.reverse_reverse, dropWhile_idem]

theorem recortaFin_prefijo_decomp (l : Str) : ∃ fin, l = recortaFin l ++ fin := by
  obtain ⟨ini, hini⟩ := dropWhile_suffix_decomp esEspacio l.reverse
  refine ⟨ini.reverse, ?_⟩
  have := congrArg List.reverse hini
  simpa [recortaFin] using this

theorem dropWhile_recortaFin (l : Str) (h : l.dropWhile esEspacio = l) :
    (recortaFin l).dropWhile esEspacio = recortaFin l := by
  cases hr : recortaFin l with
  | nil => simp
  | cons c t =>
    obtain ⟨fin, hfin⟩ := recortaFin_prefijo_decomp l
    rw [hr] at hfin
    have hc : esEspacio c = false := by
      apply head_false_of_dropWhile_self esEspacio c (t ++ fin)
      rw [← List.cons_append, ← hfin]
      exact h
    simp [List.dropWhile, hc]

theorem pyStrip_idem (l : Str) : pyStrip (pyStrip l) = pyStrip l := by
  unfold pyStrip
  rw [dropWhile_recortaFin (l.dropWhile esEspacio) (dropWhile_idem esEspacio l)]
  exact recortaFin_idem _

theorem mem_dropWhile (p : Char → Bool) (c : Char) (l : Str)
    (h : c ∈ l.dropWhile p) : c ∈ l := by
  induction l with
  | nil => simp at h
  | cons a t ih =>
    by_cases ha : p a
    · simp only [List.dropWhile, ha] at h
      exact List.mem_cons_of_mem a (ih h)
    · simpa [List.dropWhile, ha] using h

theorem mem_recortaFin (c : Char) (l : Str) (h : c ∈ recortaFin l) : c ∈ l := by
  unfold recortaFin at h
  rw [List.mem_reverse] at h
  exact List.mem_reverse.mp (mem_dropWhile _ _ _ h)

theorem mem_pyStrip (c : Char) (l : Str) (h : c ∈ pyStrip l) : c ∈ l :=
  mem_dropWhile _ _ _ (mem_recortaFin _ _ h)

theorem mem_reemplazaDobleEspacio : ∀ (l : Str), ∀ c ∈ reemplazaDobleEspacio l, c ∈ l
  | [] => by simp [reemplazaDobleEspacio]
  | [a] => by simp [reemplazaDobleEspacio]
  | a :: b :: resto => by
    intro c hc
    by_cases hab : a = ' ' && b = ' '
    · simp only [reemplazaDobleEspacio, hab, if_true] at hc
      rcases List.mem_cons.mp hc with h | h
      · subst h
        have : a = ' ' := by simpa using And.left (by simpa using hab)
        simp [this]
      · exact List.mem_cons_of_mem _ (List.mem_cons_of_mem _ (mem_reemplazaDobleEspacio resto c h))
    · simp only [reemplazaDobleEspacio, hab, if_false] at hc
      rcases List.mem_cons.mp hc with h | h
      · simp [h]
      · exact List.mem_cons_of_mem _ (mem_reemplazaDobleEspacio (b :: resto) c h)

theorem reemplazaDobleEspacio_eq_self : ∀ (l : Str),
    sinDobleEspacio l = true → reemplazaDobleEspacio l = l
  | [] => by intro; rfl
  | [c] => by intro; rfl
  | a :: b :: resto => by
    intro h
    simp only [sinDobleEspacio, Bool.and_eq_true, Bool.not_eq_true'] at h
    obtain ⟨hab, hresto⟩ := h
    simp only [reemplazaDobleEspacio, hab, Bool.false_eq_true, if_false]
    rw [reemplazaDobleEspacio_eq_self (b :: resto) hresto]

theorem map_id_on {α : Type} (f : α → α) (l : List α) (h : ∀ c ∈ l, f c = c) :
    l.map f = l := by
  induction l with
  | nil => rfl
  | cons a t ih =>
    simp only [List.map_cons, h a (List.mem_cons_self a t),
      ih (fun c hc => h c (List.mem_cons_of_mem a hc))]

theorem mayusChar_idem (c : Char) : mayusChar (mayusChar c) = mayusChar c := by
  cases hf : parejasMayus.find? (fun p => p.1 = c) with
  | none => simp [mayusChar, hf]
  | some p =>
    have hp : p ∈ parejasMayus := List.mem_of_find?_eq_some hf
    have hval : ∀ q ∈ parejasMayus, mayusChar q.2 = q.2 := by decide
    simp [mayusChar, hf]
    have := hval p hp
    simpa [mayusChar] using this

theorem tildeChar_idem (c : Char) : tildeChar (tildeChar c) = tildeChar c := by
  cases hf : parejasTildes.find? (fun p => p.1 = c) with
  | none => simp [tildeChar, hf]
  | some p =>
    have hp : p ∈ parejasTildes := List.mem_of_find?_eq_some hf
    have hval : ∀ q ∈ parejasTildes, tildeChar q.2 = q.2 := by decide
    simp [tildeChar, hf]
    have := hval p hp
    simpa [tildeChar] using this

theorem mayusChar_tildeChar (c : Char) (h : mayusChar c = c) :
    mayusChar (tildeChar c) = tildeChar c := by
  cases hf : parejasTildes.find? (fun p => p.1 = c) with
  | none => simpa [tildeChar, hf] using h
  | some p =>
    have hp : p ∈ parejasTildes := List.mem_of_find?_eq_some hf
    have hval : ∀ q ∈ parejasTildes, mayusChar q.2 = q.2 := by decide
    simp [tildeChar, hf]
    exact hval p hp

theorem pyStrip_normalizarStr (x : Str) :
    pyStrip (normalizarStr x) = normalizarStr x := by
  unfold normalizarStr
  exact pyStrip_idem _

theorem mem_normalizarStr (x : Str) (c : Char) (hc : c ∈ normalizarStr x) :
    ∃ d ∈ aplicarMapeoEspecial (pyUpper (pyStrip x)), c = tildeChar d := by
  unfold normalizarStr at hc
  have hc1 := mem_pyStrip _ _ hc
  have hc2 := mem_reemplazaDobleEspacio _ _ hc1
  unfold quitaTildes at hc2
  obtain ⟨d, hd, hde⟩ := List.mem_map.mp hc2
  exact ⟨d, hd, hde.symm⟩

theorem mayusChar_fija_normalizarStr (x : Str) (c : Char) (hc : c ∈ normalizarStr x) :
    mayusChar c = c := by
  obtain ⟨d, hd, rfl⟩ := mem_normalizarStr x c hc
  cases hf : MAPEO_MUNICIPIOS_ESPECIALES.find? (fun p => p.1 = pyUpper (pyStrip x)) with
  | none =>
    have heq : aplicarMapeoEspecial (pyUpper (pyStrip x)) = pyUpper (pyStrip x) := by
      simp [aplicarMapeoEspecial, hf]
    rw [heq] at hd
    unfold pyUpper at hd
    obtain ⟨e, _, rfl⟩ := List.mem_map.mp hd
    exact mayusChar_tildeChar _ (mayusChar_idem e)
  | some p =>
    have hp : p ∈ MAPEO_MUNICIPIOS_ESPECIALES := List.mem_of_find?_eq_some hf
    have heq : aplicarMapeoEspecial (pyUpper (pyStrip x)) = p.2 := by
      simp [aplicarMapeoEspecial, hf]
    rw [heq] at hd
    have hval : ∀ q ∈ MAPEO_MUNICIPIOS_ESPECIALES, ∀ d ∈ q.2,
        mayusChar (tildeChar d) = tildeChar d := by decide
    exact hval p hp d hd

theorem tildeChar_fija_normalizarStr (x : Str) (c : Char) (hc : c ∈ normalizarStr x) :
    tildeChar c = c := by
  obtain ⟨d, _, rfl⟩ := mem_normalizarStr x c hc
  exact tildeChar_idem d

theorem normalizarStr_idem (x : Str)
    (h1 : sinDobleEspacio (normalizarStr x) = true)
    (h2 : aplicarMapeoEspecial (normalizarStr x) = normalizarStr x) :
    normalizarStr (normalizarStr x) = normalizarStr x := by
  have hyst := pyStrip_normalizarStr x
  have hupper : pyUpper (normalizarStr x) = normalizarStr x :=
    map_id_on _ _ (mayusChar_fija_normalizarStr x)
  have hfold : quitaTildes (normalizarStr x) = normalizarStr x :=
    map_id_on _ _ (tildeChar_fija_normalizarStr x)
  calc normalizarStr (normalizarStr x)
      = pyStrip (reemplazaDobleEspacio (quitaTildes (aplicarMapeoEspecial
          (pyUpper (pyStrip (normalizarStr x)))))) := rfl
    _ = normalizarStr x := by
          rw [hyst, hupper, h2, hfold, reemplazaDobleEspacio_eq_self _ h1]
          exact hyst

/-- C1: when a reference index is loaded and a non-null query matches
neither the context step nor the exact step nor the fuzzy containment
step, municipality resolution returns the fixed sentinel code "73999"
(never null) and vereda resolution returns null (never a sentinel). -/
theorem claim_C1 (codigos : Codigos) (s : Str) (ctx : Option Str)
    (hm1 : codigos.municipios.find? (fun m => coincideExacto (normalizarStr s) m.nombre) = none)
    (hm2 : codigos.municipios.find? (fun m => coincideAprox (normalizarStr s) m.nombre) = none)
    (hv0 : busquedaContexto codigos (normalizarStr s) ctx = none)
    (hv1 : codigos.veredas.find? (fun v => coincideExacto (normalizarStr s) v.nombre) = none)
    (hv2 : codigos.veredas.find? (fun v => coincideAprox (normalizarStr s) v.nombre) = none) :
    buscar_codigo_municipio codigos (some s) = some "73999".toList ∧
    buscar_codigo_vereda codigos (some s) ctx = none := by
  constructor
  · simp only [buscar_codigo_municipio, hm1, hm2]
  · simp only [buscar_codigo_vereda, hv0, hv1, hv2]

theorem claim_C1_witness :
    buscar_codigo_municipio cods1 (some "ZZZ".toList) = some "73999".toList ∧
    buscar_codigo_vereda cods1 (some "ZZZ".toList) none = none :=
  claim_C1 cods1 "ZZZ".toList none (by decide) (by decide) (by decide) (by decide) (by decide)

/-- C4: an exact match (context-scoped or per-level) always wins over the
fuzzy containment fallback: if the exact scan finds a record, its code is
returned regardless of any containment candidates. -/
theorem claim_C4 (codigos : Codigos) (s : Str) (ctx : Option Str)
    (m : RegMunicipio) (v : RegVereda) (cod : Str) :
    (codigos.municipios.find? (fun r => coincideExacto (normalizarStr s) r.nombre) = some m →
      buscar_codigo_municipio codigos (some s) = m.codigo_municipio) ∧
    (busquedaContexto codigos (normalizarStr s) ctx = some cod →
      buscar_codigo_vereda codigos (some s) ctx = some cod) ∧
    (busquedaContexto codigos (normalizarStr s) ctx = none →
      codigos.veredas.find? (fun r => coincideExacto (normalizarStr s) r.nombre) = some v →
      buscar_codigo_vereda codigos (some s) ctx = some v.codigo_divipola) := by
  refine ⟨fun h1 => ?_, fun h2 => ?_, fun h3 h4 => ?_⟩
  · simp only [buscar_codigo_municipio, h1]
  · simp only [buscar_codigo_vereda, h2]
  · simp only [buscar_codigo_vereda, h3, h4]

theorem claim_C4_witness :
    buscar_codigo_municipio cods1 (some "ibague".toList) = some "73001".toList ∧
    buscar_codigo_vereda cods1 (some "el totumo".toList) (some "Ibagué".toList) =
      some "73001001".toList ∧
    buscar_codigo_vereda cods1 (some "la esperanza".toList) none = some "73001002".toList :=
  ⟨(claim_C4 cods1 "ibague".toList none
      ⟨"IBAGUÉ".toList, "73001".toList, some "73001".toList⟩ ⟨[], [], none⟩ []).1 (by decide),
   (claim_C4 cods1 "el totumo".toList (some "Ibagué".toList)
      ⟨[], [], none⟩ ⟨[], [], none⟩ "73001001".toList).2.1 (by decide),
   (claim_C4 cods1 "la esperanza".toList none ⟨[], [], none⟩
      ⟨"LA ESPERANZA".toList, "73001002".toList, some "IBAGUE".toList⟩ []).2.2
      (by decide) (by decide)⟩

/-- C5: when the fuzzy containment fallback is reached and several
records of the queried level satisfy bidirectional containment, the code
returned is that of the record earliest in source-file order. -/
theorem claim_C5 (codigos : Codigos) (s t : Str)
    (pre post : List RegMunicipio) (m m2 : RegMunicipio)
    (vpre vpost : List RegVereda) (v v2 : RegVereda) (ctx : Option Str)
    (hmex : codigos.municipios.find? (fun r => coincideExacto (normalizarStr s) r.nombre) = none)
    (hmsplit : codigos.municipios = pre ++ m :: post)
    (hmpre : ∀ r ∈ pre, coincideAprox (normalizarStr s) r.nombre = false)
    (hm : coincideAprox (normalizarStr s) m.nombre = true)
    (hm2 : m2 ∈ post ∧ coincideAprox (normalizarStr s) m2.nombre = true)
    (hctx : busquedaContexto codigos (normalizarStr t) ctx = none)
    (hvex : codigos.veredas.find? (fun r => coincideExacto (normalizarStr t) r.nombre) = none)
    (hvsplit : codigos.veredas = vpre ++ v :: vpost)
    (hvpre : ∀ r ∈ vpre, coincideAprox (normalizarStr t) r.nombre = false)
    (hv : coincideAprox (normalizarStr t) v.nombre = true)
    (hv2 : v2 ∈ vpost ∧ coincideAprox (normalizarStr t) v2.nombre = true) :
    buscar_codigo_municipio codigos (some s) = m.codigo_municipio ∧
    buscar_codigo_vereda codigos (some t) ctx = some v.codigo_divipola := by
  have hmfind : codigos.municipios.find? (fun r => coincideAprox (normalizarStr s) r.nombre) =
      some m := by
    rw [hmsplit]
    exact find?_split _ pre m post hmpre hm
  have hvfind : codigos.veredas.find? (fun r => coincideAprox (normalizarStr t) r.nombre) =
      some v := by
    rw [hvsplit]
    exact find?_split _ vpre v vpost hvpre hv
  constructor
  · simp only [buscar_codigo_municipio, hmex, hmfind]
  · simp only [buscar_codigo_vereda, hctx, hvex, hvfind]

theorem claim_C5_witness :
    buscar_codigo_municipio cods5 (some "SAN".toList) = some "73686".toList ∧
    buscar_codigo_vereda cods5 (some "BONITO".toList) none = some "73686001".toList :=
  claim_C5 cods5 "SAN".toList "BONITO".toList
    [] [⟨"SAN LUIS".toList, "73678".toList, some "73678".toList⟩]
    ⟨"SANTA ISABEL".toList, "73686".toList, some "73686".toList⟩
    ⟨"SAN LUIS".toList, "73678".toList, some "73678".toList⟩
    [] [⟨"BONITO ALTO".toList, "73678001".toList, some "SAN LUIS".toList⟩]
    ⟨"ALTO BONITO".toList, "73686001".toList, some "SANTA ISABEL".toList⟩
    ⟨"BONITO ALTO".toList, "73678001".toList, some "SAN LUIS".toList⟩
    none (by decide) (by decide) (by decide) (by decide) ⟨by decide, by decide⟩
    (by decide) (by decide) (by decide) (by decide) (by decide) ⟨by decide, by decide⟩

/-- C2: with `forzar_recarga = false`, a cached index present and an
unchanged file timestamp, the loader returns the cached index without
re-reading or re-parsing the file; with a differing timestamp it reparses
in full, and subsequent calls resolve against the new data. -/
theorem claim_C2 :
    (∀ (f : ArchivoGpkg) (st : EstadoCache) (c : Codigos),
      st.cache = some c → st.timestamp = some f.mtime →
      cargar_codigos_divipola_desde_gpkg false (some f) st = (some c, st, false)) ∧
    (∀ (f : ArchivoGpkg) (st : EstadoCache) (filas : List Fila) (c0 : Codigos),
      st.cache = some c0 → st.timestamp ≠ some f.mtime → f.contenido = some filas →
      cargar_codigos_divipola_desde_gpkg false (some f) st =
        (some (construyeCodigos filas),
         ⟨some (construyeCodigos filas), some f.mtime⟩, true) ∧
      cargar_codigos_divipola_desde_gpkg false (some f)
          ⟨some (construyeCodigos filas), some f.mtime⟩ =
        (some (construyeCodigos filas),
         ⟨some (construyeCodigos filas), some f.mtime⟩, false)) := by
  constructor
  · intro f st c h1 h2
    simp [cargar_codigos_divipola_desde_gpkg, h1, h2]
  · intro f st filas c0 h1 hne hc
    constructor
    · simp [cargar_codigos_divipola_desde_gpkg, hne, hc]
    · simp [cargar_codigos_divipola_desde_gpkg]

theorem claim_C2_witness :
    cargar_codigos_divipola_desde_gpkg false (some ⟨5, some []⟩) ⟨some cods1, some 5⟩ =
      (some cods1, ⟨some cods1, some 5⟩, false) ∧
    cargar_codigos_divipola_desde_gpkg false (some ⟨7, some []⟩) ⟨some cods1, some 5⟩ =
      (some (construyeCodigos []), ⟨some (construyeCodigos []), some 7⟩, true) :=
  ⟨claim_C2.1 ⟨5, some []⟩ ⟨some cods1, some 5⟩ cods1 rfl rfl,
   (claim_C2.2 ⟨7, some []⟩ ⟨some cods1, some 5⟩ [] cods1 rfl (by decide) rfl).1⟩

/-- C3 counterexample: with a previous successful index in the cache and
the reference file missing, the loader returns `None` rather than the
retained previous index, refuting "a null return occurs only when no
previous successful build exists". -/
theorem claim_C3_counterexample :
    cargar_codigos_divipola_desde_gpkg false none ⟨some cods1, some 5⟩ =
      (none, ⟨some cods1, some 5⟩, false) ∧
    (some cods1).isSome = true := ⟨rfl, rfl⟩

/-- C3 amended: a failing rebuild attempt (file missing or unparsable)
leaves the cached previous index untouched in the global state, but the
call itself returns `None` — even when a previous successful build
exists. -/
theorem claim_C3_amended :
    (∀ (forzar : Bool) (st : EstadoCache),
      cargar_codigos_divipola_desde_gpkg forzar none st = (none, st, false)) ∧
    (∀ (forzar : Bool) (f : ArchivoGpkg) (st : EstadoCache),
      f.contenido = none →
      ¬(¬forzar ∧ st.cache.isSome ∧ st.timestamp = some f.mtime) →
      cargar_codigos_divipola_desde_gpkg forzar (some f) st = (none, st, true)) := by
  constructor
  · intro forzar st
    rfl
  · intro forzar f st hc hcond
    simp only [cargar_codigos_divipola_desde_gpkg, if_neg hcond, hc]

theorem claim_C3_amended_witness :
    cargar_codigos_divipola_desde_gpkg false none ⟨some cods1, some 3⟩ =
      (none, ⟨some cods1, some 3⟩, false) ∧
    cargar_codigos_divipola_desde_gpkg false (some ⟨9, none⟩) ⟨some cods1, some 3⟩ =
      (none, ⟨some cods1, some 3⟩, true) :=
  ⟨claim_C3_amended.1 false ⟨some cods1, some 3⟩,
   claim_C3_amended.2 false ⟨9, none⟩ ⟨some cods1, some 3⟩ rfl (by decide)⟩

/-- C8 counterexample: normalization is not idempotent.  Four spaces
collapse to two on the first pass and to one on the second, so a second
application changes the result. -/
theorem claim_C8_counterexample :
    normalizar_nombre_territorio (normalizar_nombre_territorio (some "A    B".toList)) ≠
      normalizar_nombre_territorio (some "A    B".toList) := by decide

/-- C8 amended: normalization is idempotent on every input whose
normalized form contains no double space and is not a key of the special
municipality alias table (the two ways a second pass can still change the
string). -/
theorem claim_C8_amended (x : Str)
    (h1 : sinDobleEspacio (normalizarStr x) = true)
    (h2 : aplicarMapeoEspecial (normalizarStr x) = normalizarStr x) :
    normalizar_nombre_territorio (normalizar_nombre_territorio (some x)) =
      normalizar_nombre_territorio (some x) := by
  simp only [normalizar_nombre_territorio]
  exact congrArg some (normalizarStr_idem x h1 h2)

theorem claim_C8_amended_witness :
    sinDobleEspacio (normalizarStr "  Ibagué ".toList) = true ∧
    normalizar_nombre_territorio (normalizar_nombre_territorio (some "  Ibagué ".toList)) =
      normalizar_nombre_territorio (some "  Ibagué ".toList) :=
  ⟨by decide, claim_C8_amended "  Ibagué ".toList (by decide) (by decide)⟩

/-- C9 counterexample: the empty string normalizes to the empty string,
not to null; and a run of three internal spaces collapses to two spaces,
not to one (the pass only rewrites disjoint space pairs). -/
theorem claim_C9_counterexample :
    normalizar_nombre_territorio (some []) = some [] ∧
    normalizar_nombre_territorio (some []) ≠ none ∧
    normalizar_nombre_territorio (some "A   B".toList) = some "A  B".toList ∧
    ("A  B".toList : Str) ≠ "A B".toList := by
  refine ⟨by decide, by decide, by decide, by decide⟩

/-- C9 amended: only a null (`pd.isna`) input yields null — every genuine
string input, the empty string included, yields a string; internal
whitespace is handled by one left-to-right pass replacing disjoint space
pairs by single spaces (so three spaces become two), followed by a final
strip. -/
theorem claim_C9_amended :
    normalizar_nombre_territorio none = none ∧
    (∀ s : Str, normalizar_nombre_territorio (some s) = some (normalizarStr s)) ∧
    normalizar_nombre_territorio (some []) = some [] ∧
    normalizar_nombre_territorio (some "A   B".toList) = some "A  B".toList :=
  ⟨rfl, fun _ => rfl, by decide, by decide⟩

theorem subcadena_nil (l : Str) : subcadena [] l = true := by
  induction l with
  | nil => rfl
  | cons b bs ih => simp [subcadena, prefijo]

theorem claves_dinsert {κ ν : Type} [DecidableEq κ] (m : List (κ × ν)) (k' : κ) (v : ν)
    (k : κ) (h : k ∈ (dinsert m k' v).map Prod.fst) : k ∈ m.map Prod.fst ∨ k = k' := by
  unfold dinsert at h
  by_cases hany : m.any (fun p => decide (p.1 = k')) = true
  · rw [if_pos hany] at h
    obtain ⟨p, hp, he⟩ := List.mem_map.mp h
    obtain ⟨q, hq, hfq⟩ := List.mem_map.mp hp
    by_cases hqk : q.1 = k'
    · right
      rw [if_pos hqk] at hfq
      rw [← hfq] at he
      exact he.symm
    · left
      rw [if_neg hqk] at hfq
      rw [← hfq] at he
      exact List.mem_map.mpr ⟨q, hq, he⟩
  · rw [if_neg hany, List.map_append] at h
    rcases List.mem_append.mp h with h | h
    · left; exact h
    · right; simpa using h

theorem claves_pasoVpm (acc : List (Option Str × List (Str × Str))) (r : Fila)
    (k : Option Str) (h : k ∈ (pasoVeredasPorMunicipio acc r).map Prod.fst) :
    k ∈ acc.map Prod.fst ∨ (r.tipo = tipoVereda ∧ r.municipio = k) := by
  unfold pasoVeredasPorMunicipio at h
  by_cases ht : r.tipo = tipoVereda
  · rw [if_pos ht] at h
    cases hn : r.nombre with
    | none =>
      simp only [hn] at h
      left; exact h
    | some n =>
      cases hc : r.codigo_divipola with
      | none =>
        simp only [hn, hc] at h
        left; exact h
      | some c =>
        simp only [hn, hc] at h
        cases hg : dget acc r.municipio with
        | some interno =>
          rw [hg] at h
          rcases claves_dinsert acc r.municipio _ k h with h' | h'
          · left; exact h'
          · right; exact ⟨ht, h'.symm⟩
        | none =>
          rw [hg, List.map_append] at h
          rcases List.mem_append.mp h with h' | h'
          · left; exact h'
          · right
            refine ⟨ht, ?_⟩
            simp only [List.map_cons, List.map_nil, List.mem_singleton] at h'
            exact h'.symm
  · rw [if_neg ht] at h
    left; exact h

theorem claves_foldl_vpm (l : List Fila) :
    ∀ (acc : List (Option Str × List (Str × Str))) (k : Option Str),
    k ∈ (l.foldl pasoVeredasPorMunicipio acc).map Prod.fst →
    k ∈ acc.map Prod.fst ∨ ∃ r ∈ l, r.tipo = tipoVereda ∧ r.municipio = k := by
  induction l with
  | nil =>
    intro acc k h
    left
    simpa using h
  | cons a t ih =>
    intro acc k h
    rw [List.foldl_cons] at h
    rcases ih _ k h with h' | ⟨r, hr, hrt, hrm⟩
    · rcases claves_pasoVpm acc a k h' with h'' | ⟨ha, hm⟩
      · left; exact h''
      · right; exact ⟨a, List.mem_cons_self a t, ha, hm⟩
    · right; exact ⟨r, List.mem_cons_of_mem a hr, hrt, hrm⟩

theorem mem_filasLimpias (filas : List Fila) (a : Fila) :
    a ∈ filasLimpias filas ↔ ∃ r ∈ filas, filaValida r = true ∧ a = limpiaFila r := by
  constructor
  · intro h
    obtain ⟨b, hb, he⟩ := List.mem_map.mp h
    obtain ⟨hbf, hbv⟩ := List.mem_filter.mp hb
    exact ⟨b, hbf, hbv, he.symm⟩
  · rintro ⟨r, hr, hv, ha⟩
    exact List.mem_map.mpr ⟨r, List.mem_filter.mpr ⟨hr, hv⟩, ha.symm⟩

/-- C6 counterexample: the index builder does not apply the full
Normalizer.  For a vereda row with raw `municipio` value `"Ibagué"` the
parent key of `veredas_por_municipio` is the raw `"Ibagué"`, not the
Normalizer output `"IBAGUE"`, so a context lookup with the normalized
parent name finds nothing; and the indexed record name is the merely
strip+upper-cased `"CAÑON"`, not the Normalizer output `"CANON"`. -/
theorem claim_C6_counterexample :
    ((construyeCodigos [fila6]).veredas_por_municipio.map Prod.fst) =
      [some "Ibagué".toList] ∧
    normalizar_nombre_territorio (some "Ibagué".toList) = some "IBAGUE".toList ∧
    some "Ibagué".toList ≠ some "IBAGUE".toList ∧
    (construyeCodigos [fila6]).veredas =
      [⟨"CAÑON".toList, "73001001".toList, some "Ibagué".toList⟩] ∧
    normalizarStr "  cañon ".toList = "CANON".toList ∧
    dget (construyeCodigos [fila6]).veredas_por_municipio
      (some (normalizarStr "Ibagué".toList)) = none := by
  refine ⟨by decide, by decide, by decide, by decide, by decide, by decide⟩

/-- C6 amended: the builder applies only strip+upper-case to record
names (not alias substitution, accent folding or whitespace collapse),
and leaves parent names raw: every parent key of `veredas_por_municipio`
is the raw source `municipio` value of some kept vereda row, and every
indexed vereda record carries the strip+upper-cased source name together
with the raw source `municipio`. -/
theorem claim_C6_amended (filas : List Fila) :
    (∀ k ∈ (construyeCodigos filas).veredas_por_municipio.map Prod.fst,
      ∃ r ∈ filas, filaValida r = true ∧ r.tipo = tipoVereda ∧ r.municipio = k) ∧
    (∀ v ∈ (construyeCodigos filas).veredas,
      ∃ r ∈ filas, filaValida r = true ∧ r.tipo = tipoVereda ∧
        r.nombre.map (fun n => pyUpper (pyStrip n)) = some v.nombre ∧
        r.municipio = v.municipio) := by
  constructor
  · intro k hk
    have hk' : k ∈ ((filasLimpias filas).foldl pasoVeredasPorMunicipio []).map Prod.fst := hk
    rcases claves_foldl_vpm (filasLimpias filas) [] k hk' with h | ⟨r', hr', hrt, hrm⟩
    · simp at h
    · obtain ⟨r, hr, hval, heq⟩ := (mem_filasLimpias filas r').mp hr'
      refine ⟨r, hr, hval, ?_, ?_⟩
      · rw [heq] at hrt
        exact hrt
      · rw [heq] at hrm
        exact hrm
  · intro v hv
    have hv' : v ∈ (filasLimpias filas).filterMap (haceRegVereda tipoVereda) := hv
    obtain ⟨a, ha, hav⟩ := List.mem_filterMap.mp hv'
    obtain ⟨r, hr, hval, heq⟩ := (mem_filasLimpias filas a).mp ha
    subst heq
    unfold haceRegVereda at hav
    by_cases ht : (limpiaFila r).tipo = tipoVereda
    · rw [if_pos ht] at hav
      cases hn : r.nombre with
      | none =>
        simp only [limpiaFila, hn, Option.map_none'] at hav
        simp at hav
      | some n =>
        cases hc : r.codigo_divipola with
        | none =>
          simp only [limpiaFila, hn, hc, Option.map_some'] at hav
          simp at hav
        | some c =>
          simp only [limpiaFila, hn, hc, Option.map_some'] at hav
          have hv2 := Option.some.inj hav
          subst hv2
          refine ⟨r, hr, hval, ht, ?_, rfl⟩
          rw [hn]
          rfl
    · rw [if_neg ht] at hav
      cases hav

theorem claim_C6_amended_witness :
    (∃ r ∈ [fila6], filaValida r = true ∧ r.tipo = tipoVereda ∧
      r.municipio = some "Ibagué".toList) ∧
    (∃ r ∈ [fila6], filaValida r = true ∧ r.tipo = tipoVereda ∧
      r.nombre.map (fun n => pyUpper (pyStrip n)) = some "CAÑON".toList ∧
      r.municipio = some "Ibagué".toList) :=
  ⟨(claim_C6_amended [fila6]).1 (some "Ibagué".toList) (by decide),
   (claim_C6_amended [fila6]).2
     ⟨"CAÑON".toList, "73001001".toList, some "Ibagué".toList⟩ (by decide)⟩

/-- C7 counterexample: the flat `nombre_a_codigo` map resolves `"X"` (a
vereda) to its code, yet a municipality query for `"X"` ignores the flat
map, finds no municipality match and falls to the sentinel — so an exact
name present in the dataset at another level does not resolve. -/
theorem claim_C7_counterexample :
    dget cods7.nombre_a_codigo "X".toList = some "73024009".toList ∧
    buscar_codigo_municipio cods7 (some "X".toList) = some "73999".toList ∧
    some "73999".toList ≠ some "73024009".toList := by
  refine ⟨by decide, by decide, by decide⟩

/-- C7 amended: the resolvers never consult the flat `nombre_a_codigo`
map — their results are invariant under replacing it entirely; the exact
step scans only the per-level record list of the queried level. -/
theorem claim_C7_amended (flat flat' : List (Str × Str)) (ms : List RegMunicipio)
    (vs cs : List RegVereda) (vpm : List (Option Str × List (Str × Str)))
    (x ctx : Option Str) :
    buscar_codigo_municipio ⟨flat, ms, vs, cs, vpm⟩ x =
      buscar_codigo_municipio ⟨flat', ms, vs, cs, vpm⟩ x ∧
    buscar_codigo_vereda ⟨flat, ms, vs, cs, vpm⟩ x ctx =
      buscar_codigo_vereda ⟨flat', ms, vs, cs, vpm⟩ x ctx := by
  cases x with
  | none => exact ⟨rfl, rfl⟩
  | some s => exact ⟨rfl, rfl⟩

/-- C10 counterexample: with a municipality whose cleaned name is empty,
a whitespace-only query is captured by the exact step (its normalized
name equals the normalized query, both empty) and returns the second
municipality's code — not the first municipality's code via containment
as claimed. -/
theorem claim_C10_counterexample :
    buscar_codigo_municipio cods10 (some "   ".toList) = some "73002".toList ∧
    (cods10.municipios.map RegMunicipio.codigo_municipio).head? =
      some (some "73001".toList) ∧
    some "73002".toList ≠ some "73001".toList := by
  refine ⟨by decide, by decide, by decide⟩

/-- C10 amended: provided no indexed name itself normalizes to the empty
string, a query normalizing to the empty string reaches the containment
fallback (the empty string is a substring of everything) and returns the
first municipality's code, and analogously the first vereda's code. -/
theorem claim_C10_amended (codigos : Codigos) (s : Str) (m : RegMunicipio)
    (ms : List RegMunicipio) (v : RegVereda) (vs : List RegVereda)
    (hs : normalizarStr s = [])
    (hmun : codigos.municipios = m :: ms)
    (hmn : ∀ r ∈ codigos.municipios, normalizarStr r.nombre ≠ [])
    (hver : codigos.veredas = v :: vs)
    (hvn : ∀ r ∈ codigos.veredas, normalizarStr r.nombre ≠ []) :
    buscar_codigo_municipio codigos (some s) = m.codigo_municipio ∧
    buscar_codigo_vereda codigos (some s) none = some v.codigo_divipola := by
  have hmex : codigos.municipios.find?
      (fun r => coincideExacto (normalizarStr s) r.nombre) = none := by
    rw [List.find?_eq_none]
    intro r hr
    simp [coincideExacto, hs, hmn r hr]
  have hmap : coincideAprox (normalizarStr s) m.nombre = true := by
    simp [coincideAprox, hs, subcadena_nil]
  have hmfind : codigos.municipios.find?
      (fun r => coincideAprox (normalizarStr s) r.nombre) = some m := by
    rw [hmun]
    simp [List.find?_cons, hmap]
  have hvex : codigos.veredas.find?
      (fun r => coincideExacto (normalizarStr s) r.nombre) = none := by
    rw [List.find?_eq_none]
    intro r hr
    simp [coincideExacto, hs, hvn r hr]
  have hvap : coincideAprox (normalizarStr s) v.nombre = true := by
    simp [coincideAprox, hs, subcadena_nil]
  have hvfind : codigos.veredas.find?
      (fun r => coincideAprox (normalizarStr s) r.nombre) = some v := by
    rw [hver]
    simp [List.find?_cons, hvap]
  constructor
  · simp only [buscar_codigo_municipio, hmex, hmfind]
  · simp only [buscar_codigo_vereda, busquedaContexto, hvex, hvfind]

theorem claim_C10_amended_witness :
    buscar_codigo_municipio cods1 (some " ".toList) = some "73001".toList ∧
    buscar_codigo_vereda cods1 (some " ".toList) none = some "73001001".toList :=
  claim_C10_amended cods1 " ".toList
    ⟨"IBAGUÉ".toList, "73001".toList, some "73001".toList⟩ []
    ⟨"EL TOTUMO".toList, "73001001".toList, some "IBAGUE".toList⟩
    [⟨"LA ESPERANZA".toList, "73001002".toList, some "IBAGUE".toList⟩]
    (by decide) (by decide) (by decide) (by decide) (by decide)
